import Mathlib

/-!
Verification development for the authentication module (`src/auth.rs`) of a
mod.io API client. The Rust source is shallowly embedded: pure builders and
encoders become Lean functions, the HTTP transport collaborator becomes a
function argument `send : Route → String → Except ε α`, and `u64` becomes
`Nat` (no arithmetic overflows near `2^64` occur in this module).
-/

namespace ModioAuth

/-! ## The form-urlencoded serializer

Models `url::form_urlencoded::Serializer` as used by `auth.rs`:
`append_pair` percent-encodes key and value per the
`application/x-www-form-urlencoded` byte serializer (space becomes `+`;
ASCII alphanumerics and `*-._` pass through; every other UTF-8 byte becomes
`%XX` with uppercase hex) and pairs are joined with `&`. -/

/-- Uppercase hexadecimal digit for a value below 16. -/
def hexDigitChar (n : Nat) : Char :=
  if n < 10 then Char.ofNat (48 + n) else Char.ofNat (55 + n)

/-- `%XX` escape of one byte, uppercase hex. -/
def percentByte (b : Nat) : String :=
  String.mk ['%', hexDigitChar (b / 16), hexDigitChar (b % 16)]

/-- UTF-8 bytes of a character (standard 1-4 byte encoding). -/
def utf8Bytes (c : Char) : List Nat :=
  let n := c.toNat
  if n < 128 then [n]
  else if n < 2048 then [192 + n / 64, 128 + n % 64]
  else if n < 65536 then [224 + n / 4096, 128 + (n / 64) % 64, 128 + n % 64]
  else [240 + n / 262144, 128 + (n / 4096) % 64, 128 + (n / 64) % 64, 128 + n % 64]

/-- Characters the form-urlencoded serializer passes through unescaped:
ASCII alphanumerics and `*`, `-`, `.`, `_`. -/
def isFormPass (c : Char) : Bool :=
  c.isAlphanum || c = '*' || c = '-' || c = '.' || c = '_'

/-- Encoding of one character: space to `+`, passthrough characters kept,
everything else percent-escaped bytewise. -/
def encodeChar (c : Char) : String :=
  if c = ' ' then "+"
  else if isFormPass c then String.singleton c
  else String.join ((utf8Bytes c).map percentByte)

/-- Form-urlencoded encoding of a string. -/
def encodeStr (s : String) : String :=
  String.join (s.toList.map encodeChar)

/-- One `key=value` entry, both sides encoded (`Serializer::append_pair`). -/
def encodePair (k v : String) : String :=
  encodeStr k ++ "=" ++ encodeStr v

/-- `Serializer` output for a sequence of pairs: entries joined with `&`. -/
def encodePairs : List (String × String) → String
  | [] => ""
  | [p] => encodePair p.1 p.2
  | p :: q :: rest => encodePair p.1 p.2 ++ "&" ++ encodePairs (q :: rest)

/-! ## The parameter map

`BTreeMap<&'static str, String>` is embedded as an association list kept
sorted by key in strictly ascending lexicographic order; `insertParam` is
`BTreeMap::insert` (overwriting on an equal key), and iteration order is
list order. All keys in this module are ASCII literals, for which Lean's
`String` order agrees with Rust's bytewise `&str` order. -/

/-- Lexicographic strict order on character lists, comparing Unicode scalar
values. On UTF-8 data this coincides with Rust's bytewise `&str` order,
since UTF-8 preserves the order of code points. -/
def charListLt : List Char → List Char → Bool
  | [], [] => false
  | [], _ :: _ => true
  | _ :: _, [] => false
  | a :: as, b :: bs =>
    if a.toNat < b.toNat then true
    else if b.toNat < a.toNat then false
    else charListLt as bs

/-- Rust's `Ord` on `&str`, as an executable comparison. -/
def strLt (a b : String) : Bool := charListLt a.toList b.toList

abbrev Params := List (String × String)

/-- `BTreeMap::insert` on the sorted-list view. -/
def insertParam (k v : String) : Params → Params
  | [] => [(k, v)]
  | (k₁, v₁) :: rest =>
    if strLt k k₁ then (k, v) :: (k₁, v₁) :: rest
    else if k = k₁ then (k, v) :: rest
    else (k₁, v₁) :: insertParam k v rest

/-- Keys of a parameter map, in iteration order. -/
def queryKeys (ps : Params) : List String := ps.map Prod.fst

/-- Strictly ascending key order, the `BTreeMap` iteration invariant. -/
def ParamsSorted (ps : Params) : Prop :=
  List.Pairwise (fun a b => strLt a.1 b.1 = true) ps

/-! ## Credentials and tokens -/

/-- `Token`: access token value and optional expiry timestamp. -/
structure Token where
  value : String
  expired_at : Option Nat
deriving DecidableEq, Repr

/-- `Credentials`: API key with optional OAuth2 access token. -/
structure Credentials where
  api_key : String
  token : Option Token
deriving DecidableEq, Repr

/-- `Credentials::new`. -/
def Credentials.new (api_key : String) : Credentials :=
  { api_key := api_key, token := none }

/-- `Credentials::with_token`. -/
def Credentials.with_token (api_key token : String) : Credentials :=
  { api_key := api_key, token := some { value := token, expired_at := none } }

/-- The `fmt::Debug` implementation for `Credentials`: writes one of two
fixed literals depending only on token presence. -/
def Credentials.debugFmt (c : Credentials) : String :=
  if c.token.isSome then "Credentials(apikey+token)" else "Credentials(apikey)"

/-! ## Provider options -/

/-- `GalaxyOptions`: options for an encrypted gog app ticket. -/
structure GalaxyOptions where
  params : Params

/-- `GalaxyOptions::new`: seeds the map with `appdata = ticket`. -/
def GalaxyOptions.new (ticket : String) : GalaxyOptions :=
  { params := insertParam "appdata" ticket [] }

/-- Modelled from the spec: the `option!` macro (crate root, not in `src/`)
generates a fluent setter inserting the value under the key `email`. -/
def GalaxyOptions.email (o : GalaxyOptions) (value : String) : GalaxyOptions :=
  { params := insertParam "email" value o.params }

/-- Modelled from the spec: the `option!` macro generates a fluent setter
inserting the timestamp's decimal string under the key `date_expires`. -/
def GalaxyOptions.expired_at (o : GalaxyOptions) (ts : Nat) : GalaxyOptions :=
  { params := insertParam "date_expires" (Nat.repr ts) o.params }

/-- `QueryString` impl for `GalaxyOptions`: serialize the map in iteration
(ascending key) order. -/
def GalaxyOptions.to_query_string (o : GalaxyOptions) : String :=
  encodePairs o.params

/-- `ItchioOptions`: options for an itch.io JWT token. -/
structure ItchioOptions where
  params : Params

/-- `ItchioOptions::new`: seeds the map with `itchio_token = token`. -/
def ItchioOptions.new (token : String) : ItchioOptions :=
  { params := insertParam "itchio_token" token [] }

/-- Modelled from the spec: `option!`-generated `email` setter. -/
def ItchioOptions.email (o : ItchioOptions) (value : String) : ItchioOptions :=
  { params := insertParam "email" value o.params }

/-- Modelled from the spec: `option!`-generated `expired_at` setter. -/
def ItchioOptions.expired_at (o : ItchioOptions) (ts : Nat) : ItchioOptions :=
  { params := insertParam "date_expires" (Nat.repr ts) o.params }

/-- `QueryString` impl for `ItchioOptions`. -/
def ItchioOptions.to_query_string (o : ItchioOptions) : String :=
  encodePairs o.params

/-- `OculusOptions`: options for an Oculus user. -/
structure OculusOptions where
  params : Params

/-- `OculusOptions::new`: seeds the map with `nonce`, `user_id` (decimal
string of the numeric id) and `auth_token`, inserted in that order. -/
def OculusOptions.new (nonce : String) (user_id : Nat) (auth_token : String) :
    OculusOptions :=
  { params :=
      insertParam "auth_token" auth_token
        (insertParam "user_id" (Nat.repr user_id)
          (insertParam "nonce" nonce [])) }

/-- Modelled from the spec: `option!`-generated `email` setter. -/
def OculusOptions.email (o : OculusOptions) (value : String) : OculusOptions :=
  { params := insertParam "email" value o.params }

/-- Modelled from the spec: `option!`-generated `expired_at` setter. -/
def OculusOptions.expired_at (o : OculusOptions) (ts : Nat) : OculusOptions :=
  { params := insertParam "date_expires" (Nat.repr ts) o.params }

/-- `QueryString` impl for `OculusOptions`. -/
def OculusOptions.to_query_string (o : OculusOptions) : String :=
  encodePairs o.params

/-- `SteamOptions`: options for an encrypted steam app ticket. -/
structure SteamOptions where
  params : Params

/-- `SteamOptions::new`: seeds the map with `appdata = ticket`. -/
def SteamOptions.new (ticket : String) : SteamOptions :=
  { params := insertParam "appdata" ticket [] }

/-- Modelled from the spec: `option!`-generated `email` setter. -/
def SteamOptions.email (o : SteamOptions) (value : String) : SteamOptions :=
  { params := insertParam "email" value o.params }

/-- Modelled from the spec: `option!`-generated `expired_at` setter. -/
def SteamOptions.expired_at (o : SteamOptions) (ts : Nat) : SteamOptions :=
  { params := insertParam "date_expires" (Nat.repr ts) o.params }

/-- `QueryString` impl for `SteamOptions`. -/
def SteamOptions.to_query_string (o : SteamOptions) : String :=
  encodePairs o.params

/-! ## Link options -/

/-- `Service`: external numeric account id tagged by provider. -/
inductive Service
  | Steam (id : Nat)
  | Gog (id : Nat)
  | Itchio (id : Nat)
deriving DecidableEq, Repr

/-- `LinkOptions`: email plus tagged external account id. -/
structure LinkOptions where
  email : String
  service : Service
deriving DecidableEq, Repr

/-- `LinkOptions::steam`. -/
def LinkOptions.steam (email : String) (steam_id : Nat) : LinkOptions :=
  { email := email, service := Service.Steam steam_id }

/-- `LinkOptions::gog`. -/
def LinkOptions.gog (email : String) (gog_id : Nat) : LinkOptions :=
  { email := email, service := Service.Gog gog_id }

/-- `LinkOptions::itchio`. -/
def LinkOptions.itchio (email : String) (itchio_id : Nat) : LinkOptions :=
  { email := email, service := Service.Itchio itchio_id }

/-- The pairs appended by `LinkOptions`' `QueryString` impl, in the order
the source appends them. -/
def LinkOptions.queryPairs (o : LinkOptions) : List (String × String) :=
  let sv := match o.service with
    | Service.Steam id => ("steam", Nat.repr id)
    | Service.Gog id => ("gog", Nat.repr id)
    | Service.Itchio id => ("itch", Nat.repr id)
  [("email", o.email), ("service", sv.1), ("service_id", sv.2)]

/-- `QueryString` impl for `LinkOptions`: three `append_pair` calls. -/
def LinkOptions.to_query_string (o : LinkOptions) : String :=
  encodePairs o.queryPairs

/-! ## The authentication flow -/

/-- Modelled from the spec: the auth-specific endpoints of the routing table
(`crate::routing::Route`, not in `src/`); opaque tags selected by each
operation. -/
inductive Route
  | AuthEmailRequest
  | AuthEmailExchange
  | AuthGog
  | AuthItchio
  | AuthOculus
  | AuthSteam
  | LinkAccount
deriving DecidableEq, Repr

/-- Modelled from the spec: `crate::ModioMessage` (not in `src/`), the plain
acknowledgment payload; its contents are never inspected here. -/
structure ModioMessage where
  message : String

/-- `AccessToken`: the deserialized exchange response,
`{access_token, date_expires?}`. -/
structure AccessToken where
  value : String
  expired_at : Option Nat
deriving DecidableEq, Repr

/-- `Modio` client as far as this module observes it: its credentials. -/
structure Modio where
  credentials : Credentials

/-- `AuthOptions`: closed sum over the four provider option sets. -/
inductive AuthOptions
  | Gog (o : GalaxyOptions)
  | Itchio (o : ItchioOptions)
  | Oculus (o : OculusOptions)
  | Steam (o : SteamOptions)

/-- Route selection and body encoding of `Auth::external`'s `match`. -/
def externalDispatch : AuthOptions → Route × String
  | AuthOptions.Gog o => (Route.AuthGog, o.to_query_string)
  | AuthOptions.Itchio o => (Route.AuthItchio, o.to_query_string)
  | AuthOptions.Oculus o => (Route.AuthOculus, o.to_query_string)
  | AuthOptions.Steam o => (Route.AuthSteam, o.to_query_string)

/-- `Auth::request_code`: encode `{email}`, post to the email-request
route, discard the acknowledgment. The transport collaborator
(`request(route).body(data).send()`) is the argument `send`. -/
def Auth.request_code {ε : Type} (_m : Modio) (email : String)
    (send : Route → String → Except ε ModioMessage) : Except ε Unit :=
  match send Route.AuthEmailRequest (encodePairs [("email", email)]) with
  | Except.error e => Except.error e
  | Except.ok _ => Except.ok ()

/-- `Auth::security_code`: encode `{security_code}`, post to the exchange
route, and on success return new `Credentials` carrying the client's
`api_key` and the server-issued token. -/
def Auth.security_code {ε : Type} (m : Modio) (code : String)
    (send : Route → String → Except ε AccessToken) : Except ε Credentials :=
  match send Route.AuthEmailExchange (encodePairs [("security_code", code)]) with
  | Except.error e => Except.error e
  | Except.ok t =>
      Except.ok
        { api_key := m.credentials.api_key
          token := some { value := t.value, expired_at := t.expired_at } }

/-- `Auth::external`: dispatch on the provider variant for route and body,
post, and on success return new `Credentials` as in `security_code`. -/
def Auth.external {ε : Type} (m : Modio) (auth_options : AuthOptions)
    (send : Route → String → Except ε AccessToken) : Except ε Credentials :=
  let rd := externalDispatch auth_options
  match send rd.1 rd.2 with
  | Except.error e => Except.error e
  | Except.ok t =>
      Except.ok
        { api_key := m.credentials.api_key
          token := some { value := t.value, expired_at := t.expired_at } }

/-- `Auth::link`: post the encoded `LinkOptions` to the link route, discard
the acknowledgment. -/
def Auth.link {ε : Type} (_m : Modio) (options : LinkOptions)
    (send : Route → String → Except ε ModioMessage) : Except ε Unit :=
  match send Route.LinkAccount options.to_query_string with
  | Except.error e => Except.error e
  | Except.ok _ => Except.ok ()

/-! ## Setter-call sequences

Harness for quantifying over arbitrary sequences of optional-field setter
calls on a provider option value. -/

/-- One optional-field setter call (`email(...)` or `expired_at(...)`). -/
inductive OptCall
  | setEmail (v : String)
  | setExpiredAt (ts : Nat)

/-- Effect of a call sequence on the underlying parameter map. -/
def applyCallsP (ps : Params) : List OptCall → Params
  | [] => ps
  | OptCall.setEmail v :: rest => applyCallsP (insertParam "email" v ps) rest
  | OptCall.setExpiredAt t :: rest =>
      applyCallsP (insertParam "date_expires" (Nat.repr t) ps) rest

/-- Apply a call sequence through `GalaxyOptions`' own setters. -/
def GalaxyOptions.applyCalls (o : GalaxyOptions) : List OptCall → GalaxyOptions
  | [] => o
  | OptCall.setEmail v :: rest => (o.email v).applyCalls rest
  | OptCall.setExpiredAt t :: rest => (o.expired_at t).applyCalls rest

/-- Apply a call sequence through `ItchioOptions`' own setters. -/
def ItchioOptions.applyCalls (o : ItchioOptions) : List OptCall → ItchioOptions
  | [] => o
  | OptCall.setEmail v :: rest => (o.email v).applyCalls rest
  | OptCall.setExpiredAt t :: rest => (o.expired_at t).applyCalls rest

/-- Apply a call sequence through `OculusOptions`' own setters. -/
def OculusOptions.applyCalls (o : OculusOptions) : List OptCall → OculusOptions
  | [] => o
  | OptCall.setEmail v :: rest => (o.email v).applyCalls rest
  | OptCall.setExpiredAt t :: rest => (o.expired_at t).applyCalls rest

/-- Apply a call sequence through `SteamOptions`' own setters. -/
def SteamOptions.applyCalls (o : SteamOptions) : List OptCall → SteamOptions
  | [] => o
  | OptCall.setEmail v :: rest => (o.email v).applyCalls rest
  | OptCall.setExpiredAt t :: rest => (o.expired_at t).applyCalls rest

/-! ## Observation helpers

Executable observations used to state claims: substring containment (for
the redaction claim about `fmt::Debug`) and key lookup (for the
last-call-wins claim about the setters). -/

/-- `needle` is a leading run of `hay`. -/
def charListLeads : List Char → List Char → Bool
  | [], _ => true
  | _ :: _, [] => false
  | a :: as, b :: bs => a = b && charListLeads as bs

/-- `needle` occurs contiguously somewhere in `hay`. -/
def charListHasRun (needle : List Char) : List Char → Bool
  | [] => charListLeads needle []
  | b :: bs => charListLeads needle (b :: bs) || charListHasRun needle bs

/-- `hay` contains `needle` as a substring. -/
def strContains (hay needle : String) : Bool :=
  charListHasRun needle.toList hay.toList

/-- `BTreeMap::get` on the association-list view. -/
def lookupParam (k : String) : Params → Option String
  | [] => none
  | (k₁, v₁) :: rest => if k = k₁ then some v₁ else lookupParam k rest

/-! ## Lemmas about the key order -/

theorem charListLt_irrefl : ∀ l : List Char, charListLt l l = false
  | [] => rfl
  | a :: as => by simp [charListLt, charListLt_irrefl as]

theorem charListLt_trans {l₁ l₂ l₃ : List Char} (h₁ : charListLt l₁ l₂ = true)
    (h₂ : charListLt l₂ l₃ = true) : charListLt l₁ l₃ = true := by
  induction l₁ generalizing l₂ l₃ with
  | nil =>
    cases l₃ with
    | nil =>
      cases l₂ with
      | nil => exact h₁
      | cons b bs => simp [charListLt] at h₂
    | cons c cs => simp [charListLt]
  | cons a as ih =>
    cases l₂ with
    | nil => simp [charListLt] at h₁
    | cons b bs =>
      cases l₃ with
      | nil => simp [charListLt] at h₂
      | cons c cs =>
        simp only [charListLt] at h₁ h₂ ⊢
        by_cases hab : a.toNat < b.toNat <;> by_cases hba : b.toNat < a.toNat <;>
          by_cases hbc : b.toNat < c.toNat <;> by_cases hcb : c.toNat < b.toNat <;>
            simp [hab, hba, hbc, hcb] at h₁ h₂ ⊢ <;>
            first
              | (have hac : a.toNat < c.toNat := by omega
                 simp [hac])
              | (have hac : ¬ a.toNat < c.toNat := by omega
                 have hca : ¬ c.toNat < a.toNat := by omega
                 simp [hac, hca]
                 exact ⟨by omega, ih h₁ h₂⟩)

theorem charListLt_conn : ∀ {l₁ l₂ : List Char}, charListLt l₁ l₂ = false →
    charListLt l₂ l₁ = false → l₁ = l₂
  | [], [], _, _ => rfl
  | [], _ :: _, h₁, _ => by simp [charListLt] at h₁
  | _ :: _, [], _, h₂ => by simp [charListLt] at h₂
  | a :: as, b :: bs, h₁, h₂ => by
    simp only [charListLt] at h₁ h₂
    by_cases hab : a.toNat < b.toNat <;> by_cases hba : b.toNat < a.toNat <;>
      simp [hab, hba] at h₁ h₂
    have : a = b := Char.eq_of_val_eq (UInt32.ext (show a.toNat = b.toNat by omega))
    rw [this, charListLt_conn h₁ h₂]

theorem strLt_irrefl (s : String) : strLt s s = false :=
  charListLt_irrefl s.toList

theorem strLt_trans {a b c : String} (h₁ : strLt a b = true)
    (h₂ : strLt b c = true) : strLt a c = true :=
  charListLt_trans h₁ h₂

theorem strLt_conn {a b : String} (h₁ : strLt a b = false)
    (h₂ : strLt b a = false) : a = b :=
  String.toList_inj.mp (charListLt_conn h₁ h₂)

theorem strLt_ne {a b : String} (h : strLt a b = true) : a ≠ b := by
  intro he
  rw [he, strLt_irrefl] at h
  exact Bool.false_ne_true h

/-! ## Lemmas about the parameter map -/

theorem mem_insertParam {k v : String} : ∀ {ps : Params} {x : String × String},
    x ∈ insertParam k v ps → x = (k, v) ∨ x ∈ ps := by
  intro ps
  induction ps with
  | nil =>
    intro x hx
    simp [insertParam] at hx
    exact Or.inl (by simp [hx])
  | cons p rest ih =>
    intro x hx
    obtain ⟨k₁, v₁⟩ := p
    simp only [insertParam] at hx
    by_cases h₁ : strLt k k₁ <;> simp [h₁] at hx
    · rcases hx with hx | hx | hx
      · exact Or.inl (by simp [hx])
      · exact Or.inr (by simp [hx])
      · exact Or.inr (by simp [hx])
    · by_cases h₂ : k = k₁ <;> simp [h₂] at hx
      · rcases hx with hx | hx
        · exact Or.inl (by simp [hx, h₂])
        · exact Or.inr (by simp [hx])
      · rcases hx with hx | hx
        · exact Or.inr (by simp [hx])
        · rcases ih hx with hx' | hx'
          · exact Or.inl hx'
          · exact Or.inr (by simp [hx'])

theorem insertParam_sorted {k v : String} : ∀ {ps : Params},
    ParamsSorted ps → ParamsSorted (insertParam k v ps) := by
  intro ps
  induction ps with
  | nil =>
    intro _
    simp [insertParam, ParamsSorted]
  | cons p rest ih =>
    intro hs
    obtain ⟨k₁, v₁⟩ := p
    rw [ParamsSorted, List.pairwise_cons] at hs
    obtain ⟨hhead, htail⟩ := hs
    simp only [insertParam]
    by_cases h₁ : strLt k k₁ <;> simp only [h₁, if_true, if_false, ite_true, ite_false]
    · refine List.Pairwise.cons ?_ (List.Pairwise.cons hhead htail)
      intro x hx
      rcases List.mem_cons.mp hx with hx | hx
      · simp [hx, h₁]
      · exact strLt_trans h₁ (hhead x hx)
    · by_cases h₂ : k = k₁ <;> simp only [h₂, if_true, if_false, ite_true, ite_false]
      · exact List.Pairwise.cons (by simpa using hhead) htail
      · refine List.Pairwise.cons ?_ (ih htail)
        intro x hx
        rcases mem_insertParam hx with hx' | hx'
        · have hk : strLt k₁ k = true := by
            cases hlt : strLt k₁ k with
            | true => rfl
            | false =>
              exact absurd (strLt_conn (show strLt k k₁ = false by simpa using h₁) hlt) h₂
          simp [hx', hk]
        · exact hhead x hx'

theorem insertParam_overwrite {k v₁ v₂ : String} : ∀ ps : Params,
    insertParam k v₂ (insertParam k v₁ ps) = insertParam k v₂ ps := by
  intro ps
  induction ps with
  | nil => simp [insertParam, strLt_irrefl]
  | cons p rest ih =>
    obtain ⟨k₁, w₁⟩ := p
    by_cases h₁ : strLt k k₁
    · simp [insertParam, h₁, strLt_irrefl]
    · by_cases h₂ : k = k₁
      · simp [insertParam, h₁, h₂, strLt_irrefl]
      · simp [insertParam, h₁, h₂, ih]

theorem applyCallsP_sorted : ∀ (calls : List OptCall) {ps : Params},
    ParamsSorted ps → ParamsSorted (applyCallsP ps calls)
  | [], _, h => h
  | OptCall.setEmail _ :: rest, _, h =>
    applyCallsP_sorted rest (insertParam_sorted h)
  | OptCall.setExpiredAt _ :: rest, _, h =>
    applyCallsP_sorted rest (insertParam_sorted h)

theorem galaxy_applyCalls_params :
    ∀ (calls : List OptCall) (o : GalaxyOptions),
      (o.applyCalls calls).params = applyCallsP o.params calls
  | [], _ => rfl
  | OptCall.setEmail v :: rest, o => galaxy_applyCalls_params rest (o.email v)
  | OptCall.setExpiredAt t :: rest, o => galaxy_applyCalls_params rest (o.expired_at t)

theorem itchio_applyCalls_params :
    ∀ (calls : List OptCall) (o : ItchioOptions),
      (o.applyCalls calls).params = applyCallsP o.params calls
  | [], _ => rfl
  | OptCall.setEmail v :: rest, o => itchio_applyCalls_params rest (o.email v)
  | OptCall.setExpiredAt t :: rest, o => itchio_applyCalls_params rest (o.expired_at t)

theorem oculus_applyCalls_params :
    ∀ (calls : List OptCall) (o : OculusOptions),
      (o.applyCalls calls).params = applyCallsP o.params calls
  | [], _ => rfl
  | OptCall.setEmail v :: rest, o => oculus_applyCalls_params rest (o.email v)
  | OptCall.setExpiredAt t :: rest, o => oculus_applyCalls_params rest (o.expired_at t)

theorem steam_applyCalls_params :
    ∀ (calls : List OptCall) (o : SteamOptions),
      (o.applyCalls calls).params = applyCallsP o.params calls
  | [], _ => rfl
  | OptCall.setEmail v :: rest, o => steam_applyCalls_params rest (o.email v)
  | OptCall.setExpiredAt t :: rest, o => steam_applyCalls_params rest (o.expired_at t)

theorem galaxy_new_sorted (t : String) :
    ParamsSorted (GalaxyOptions.new t).params :=
  insertParam_sorted List.Pairwise.nil

theorem itchio_new_sorted (t : String) :
    ParamsSorted (ItchioOptions.new t).params :=
  insertParam_sorted List.Pairwise.nil

theorem oculus_new_sorted (n : String) (uid : Nat) (tok : String) :
    ParamsSorted (OculusOptions.new n uid tok).params :=
  insertParam_sorted (insertParam_sorted (insertParam_sorted List.Pairwise.nil))

theorem steam_new_sorted (t : String) :
    ParamsSorted (SteamOptions.new t).params :=
  insertParam_sorted List.Pairwise.nil

theorem sorted_keys_nodup {ps : Params} (h : ParamsSorted ps) :
    (queryKeys ps).Nodup :=
  List.Pairwise.map Prod.fst (fun _ _ hr => strLt_ne hr) h

/-! ## Lemmas about the encoder -/

theorem string_mk_append (l₁ l₂ : List Char) :
    String.mk l₁ ++ String.mk l₂ = String.mk (l₁ ++ l₂) := rfl

theorem string_append_assoc (a b c : String) : a ++ b ++ c = a ++ (b ++ c) := by
  rcases a with ⟨la⟩
  rcases b with ⟨lb⟩
  rcases c with ⟨lc⟩
  exact congrArg String.mk (List.append_assoc la lb lc)

theorem join_foldl_aux : ∀ (l : List Char) (acc : String),
    List.foldl (fun r s => r ++ s) acc (l.map String.singleton) =
      acc ++ String.mk l
  | [], acc => by
    rcases acc with ⟨d⟩
    exact (congrArg String.mk (List.append_nil d)).symm
  | c :: cs, acc => by
    have step : acc ++ String.singleton c ++ String.mk cs = acc ++ String.mk (c :: cs) := by
      rcases acc with ⟨d⟩
      exact congrArg String.mk (List.append_assoc d [c] cs)
    calc List.foldl (fun r s => r ++ s) acc ((c :: cs).map String.singleton)
        = List.foldl (fun r s => r ++ s) (acc ++ String.singleton c)
            (cs.map String.singleton) := rfl
      _ = acc ++ String.singleton c ++ String.mk cs := join_foldl_aux cs _
      _ = acc ++ String.mk (c :: cs) := step

theorem join_map_singleton (l : List Char) :
    String.join (l.map String.singleton) = String.mk l :=
  join_foldl_aux l ""

theorem encodeChar_pass {c : Char} (h : isFormPass c = true) :
    encodeChar c = String.singleton c := by
  have hs : ¬ c = ' ' := by
    intro he
    subst he
    exact absurd h (by decide)
  simp [encodeChar, hs, h]

theorem encodeStr_pass {s : String} (h : ∀ c ∈ s.toList, isFormPass c = true) :
    encodeStr s = s := by
  rcases s with ⟨l⟩
  show String.join (l.map encodeChar) = String.mk l
  have : l.map encodeChar = l.map String.singleton :=
    List.map_congr_left fun c hc => encodeChar_pass (h c hc)
  rw [this, join_map_singleton]

theorem digitChar_pass {n : Nat} (h : n < 10) :
    isFormPass (Nat.digitChar n) = true := by
  interval_cases n <;> decide

theorem toDigitsCore_pass : ∀ (fuel n : Nat) (ds : List Char),
    (∀ c ∈ ds, isFormPass c = true) →
    ∀ c ∈ Nat.toDigitsCore 10 fuel n ds, isFormPass c = true := by
  intro fuel
  induction fuel with
  | zero =>
    intro n ds hds
    simpa [Nat.toDigitsCore] using hds
  | succ f ih =>
    intro n ds hds
    have hcons : ∀ c ∈ Nat.digitChar (n % 10) :: ds, isFormPass c = true := by
      intro c hc
      rcases List.mem_cons.mp hc with hc | hc
      · rw [hc]
        exact digitChar_pass (Nat.mod_lt n (by decide))
      · exact hds c hc
    simp only [Nat.toDigitsCore]
    split
    · exact hcons
    · exact ih (n / 10) (Nat.digitChar (n % 10) :: ds) hcons

theorem repr_chars_pass (n : Nat) :
    ∀ c ∈ (Nat.repr n).toList, isFormPass c = true := by
  intro c hc
  exact toDigitsCore_pass (n + 1) n [] (by intro c hc; cases hc) c hc

theorem encodeStr_repr (n : Nat) : encodeStr (Nat.repr n) = Nat.repr n :=
  encodeStr_pass (repr_chars_pass n)

theorem string_eq_of_data {a b : String} (h : a.data = b.data) : a = b := by
  rcases a with ⟨la⟩
  rcases b with ⟨lb⟩
  exact congrArg String.mk h

theorem string_data_append (a b : String) :
    (a ++ b).data = a.data ++ b.data := by
  rcases a with ⟨la⟩
  rcases b with ⟨lb⟩
  rfl

theorem lookupParam_insert_self (k v : String) :
    ∀ ps : Params, lookupParam k (insertParam k v ps) = some v
  | [] => by simp [insertParam, lookupParam]
  | (k₁, v₁) :: rest => by
    by_cases h₁ : strLt k k₁
    · simp [insertParam, h₁, lookupParam]
    · by_cases h₂ : k = k₁
      · simp [insertParam, h₁, h₂, lookupParam, strLt_irrefl]
      · simp [insertParam, h₁, h₂, lookupParam,
          lookupParam_insert_self k v rest]

theorem applyCallsP_append : ∀ (c₁ c₂ : List OptCall) (ps : Params),
    applyCallsP ps (c₁ ++ c₂) = applyCallsP (applyCallsP ps c₁) c₂
  | [], _, _ => rfl
  | OptCall.setEmail _ :: rest, c₂, _ => applyCallsP_append rest c₂ _
  | OptCall.setExpiredAt _ :: rest, c₂, _ => applyCallsP_append rest c₂ _

/-! ## Claim theorems -/

/-- C3: `Credentials::new(k)` has `api_key = k` and no token;
`Credentials::with_token(k, t)` has `api_key = k` and a present token with
`value = t` and `expired_at = none`. -/
theorem C3_credentials_constructors (k t : String) :
    (Credentials.new k).api_key = k ∧
    (Credentials.new k).token = none ∧
    (Credentials.with_token k t).api_key = k ∧
    (Credentials.with_token k t).token =
      some { value := t, expired_at := none } :=
  ⟨rfl, rfl, rfl, rfl⟩

/-- C2: with only the mandatory constructor arguments, each provider's
query string holds exactly the mandatory keys; concretely,
`OculusOptions::new("n", 42, "tok")` encodes to
`auth_token=tok&nonce=n&user_id=42` with the numeric id in decimal. -/
theorem C2_mandatory_fields_only (g it n tok : String) (uid : Nat) :
    (GalaxyOptions.new g).to_query_string = "appdata=" ++ encodeStr g ∧
    (ItchioOptions.new it).to_query_string = "itchio_token=" ++ encodeStr it ∧
    (SteamOptions.new g).to_query_string = "appdata=" ++ encodeStr g ∧
    queryKeys (GalaxyOptions.new g).params = ["appdata"] ∧
    queryKeys (ItchioOptions.new it).params = ["itchio_token"] ∧
    queryKeys (OculusOptions.new n uid tok).params =
      ["auth_token", "nonce", "user_id"] ∧
    queryKeys (SteamOptions.new g).params = ["appdata"] ∧
    (OculusOptions.new "n" 42 "tok").to_query_string =
      "auth_token=tok&nonce=n&user_id=42" :=
  ⟨rfl, rfl, rfl, rfl, rfl, rfl, rfl, rfl⟩

/-- C7: optional fields never set are absent from the encoding; concretely
`GalaxyOptions::new("T1").email("a@b.com")` encodes to exactly
`appdata=T1&email=a%40b.com` with the `@` percent-encoded and no
`date_expires` key. -/
theorem C7_unset_optionals_absent (t e : String) :
    queryKeys ((GalaxyOptions.new t).email e).params = ["appdata", "email"] ∧
    "date_expires" ∉ queryKeys ((GalaxyOptions.new t).email e).params ∧
    ((GalaxyOptions.new "T1").email "a@b.com").to_query_string =
      "appdata=T1&email=a%40b.com" := by
  refine ⟨rfl, ?_, rfl⟩
  intro h
  rw [show queryKeys ((GalaxyOptions.new t).email e).params =
    ["appdata", "email"] from rfl] at h
  simp at h

/-- C10: `GalaxyOptions` and `SteamOptions` encode identically for every
ticket and every setter-call sequence, and `Auth::external` routes them to
`AuthGog` and `AuthSteam` respectively with those bodies, so the two flows
differ only in the route. -/
theorem C10_galaxy_steam_same_encoder (t : String) (calls : List OptCall) :
    ((GalaxyOptions.new t).applyCalls calls).to_query_string =
      ((SteamOptions.new t).applyCalls calls).to_query_string ∧
    externalDispatch (AuthOptions.Gog ((GalaxyOptions.new t).applyCalls calls)) =
      (Route.AuthGog, ((GalaxyOptions.new t).applyCalls calls).to_query_string) ∧
    externalDispatch (AuthOptions.Steam ((SteamOptions.new t).applyCalls calls)) =
      (Route.AuthSteam, ((SteamOptions.new t).applyCalls calls).to_query_string) := by
  refine ⟨?_, rfl, rfl⟩
  show encodePairs ((GalaxyOptions.new t).applyCalls calls).params =
    encodePairs ((SteamOptions.new t).applyCalls calls).params
  rw [galaxy_applyCalls_params, steam_applyCalls_params,
    show (GalaxyOptions.new t).params = (SteamOptions.new t).params from rfl]

theorem linkKeys_sorted :
    List.Pairwise (fun a b => strLt a b = true)
      ["email", "service", "service_id"] := by
  decide

/-- C1: every encoded body's keys are in strictly ascending lexicographic
order regardless of insertion or setter-call order: sortedness holds after
any setter sequence on any provider, adding both optionals in either order
yields the fixed key lists, and `LinkOptions` always yields
`email, service, service_id`. -/
theorem C1_keys_lexicographic :
    (∀ (t : String) (calls : List OptCall),
      ParamsSorted ((GalaxyOptions.new t).applyCalls calls).params) ∧
    (∀ (t : String) (calls : List OptCall),
      ParamsSorted ((ItchioOptions.new t).applyCalls calls).params) ∧
    (∀ (n : String) (uid : Nat) (tok : String) (calls : List OptCall),
      ParamsSorted ((OculusOptions.new n uid tok).applyCalls calls).params) ∧
    (∀ (t : String) (calls : List OptCall),
      ParamsSorted ((SteamOptions.new t).applyCalls calls).params) ∧
    (∀ (t e : String) (x : Nat),
      queryKeys (((GalaxyOptions.new t).email e).expired_at x).params =
        ["appdata", "date_expires", "email"] ∧
      queryKeys (((GalaxyOptions.new t).expired_at x).email e).params =
        ["appdata", "date_expires", "email"] ∧
      queryKeys (((SteamOptions.new t).email e).expired_at x).params =
        ["appdata", "date_expires", "email"] ∧
      queryKeys (((SteamOptions.new t).expired_at x).email e).params =
        ["appdata", "date_expires", "email"] ∧
      queryKeys (((ItchioOptions.new t).email e).expired_at x).params =
        ["date_expires", "email", "itchio_token"] ∧
      queryKeys (((ItchioOptions.new t).expired_at x).email e).params =
        ["date_expires", "email", "itchio_token"]) ∧
    (∀ (n : String) (uid : Nat) (tok e : String) (x : Nat),
      queryKeys (((OculusOptions.new n uid tok).email e).expired_at x).params =
        ["auth_token", "date_expires", "email", "nonce", "user_id"] ∧
      queryKeys (((OculusOptions.new n uid tok).expired_at x).email e).params =
        ["auth_token", "date_expires", "email", "nonce", "user_id"]) ∧
    (∀ lo : LinkOptions,
      queryKeys lo.queryPairs = ["email", "service", "service_id"] ∧
      List.Pairwise (fun a b => strLt a b = true) (queryKeys lo.queryPairs)) := by
  refine ⟨?_, ?_, ?_, ?_, ?_, ?_, ?_⟩
  · intro t calls
    rw [galaxy_applyCalls_params]
    exact applyCallsP_sorted calls (galaxy_new_sorted t)
  · intro t calls
    rw [itchio_applyCalls_params]
    exact applyCallsP_sorted calls (itchio_new_sorted t)
  · intro n uid tok calls
    rw [oculus_applyCalls_params]
    exact applyCallsP_sorted calls (oculus_new_sorted n uid tok)
  · intro t calls
    rw [steam_applyCalls_params]
    exact applyCallsP_sorted calls (steam_new_sorted t)
  · exact fun t e x => ⟨rfl, rfl, rfl, rfl, rfl, rfl⟩
  · exact fun n uid tok e x => ⟨rfl, rfl⟩
  · intro lo
    obtain ⟨em, sv⟩ := lo
    cases sv <;> exact ⟨rfl, linkKeys_sorted⟩

/-- C9: provider field sets are key-unique after any setter sequence; each
setter overwrites its key, both as structural idempotence of repeated
setting and as last-call-wins for the stored value. -/
theorem C9_key_unique_overwrite :
    (∀ (t : String) (calls : List OptCall),
      (queryKeys ((GalaxyOptions.new t).applyCalls calls).params).Nodup) ∧
    (∀ (t : String) (calls : List OptCall),
      (queryKeys ((ItchioOptions.new t).applyCalls calls).params).Nodup) ∧
    (∀ (n : String) (uid : Nat) (tok : String) (calls : List OptCall),
      (queryKeys ((OculusOptions.new n uid tok).applyCalls calls).params).Nodup) ∧
    (∀ (t : String) (calls : List OptCall),
      (queryKeys ((SteamOptions.new t).applyCalls calls).params).Nodup) ∧
    (∀ (o : GalaxyOptions) (a b : String), (o.email a).email b = o.email b) ∧
    (∀ (o : GalaxyOptions) (a b : Nat),
      (o.expired_at a).expired_at b = o.expired_at b) ∧
    (∀ (o : ItchioOptions) (a b : String), (o.email a).email b = o.email b) ∧
    (∀ (o : ItchioOptions) (a b : Nat),
      (o.expired_at a).expired_at b = o.expired_at b) ∧
    (∀ (o : OculusOptions) (a b : String), (o.email a).email b = o.email b) ∧
    (∀ (o : OculusOptions) (a b : Nat),
      (o.expired_at a).expired_at b = o.expired_at b) ∧
    (∀ (o : SteamOptions) (a b : String), (o.email a).email b = o.email b) ∧
    (∀ (o : SteamOptions) (a b : Nat),
      (o.expired_at a).expired_at b = o.expired_at b) ∧
    (∀ (o : GalaxyOptions) (calls : List OptCall) (e : String),
      lookupParam "email"
        ((o.applyCalls (calls ++ [OptCall.setEmail e])).params) = some e) ∧
    (∀ (o : GalaxyOptions) (calls : List OptCall) (x : Nat),
      lookupParam "date_expires"
        ((o.applyCalls (calls ++ [OptCall.setExpiredAt x])).params) =
          some (Nat.repr x)) ∧
    (∀ (o : OculusOptions) (calls : List OptCall) (e : String),
      lookupParam "email"
        ((o.applyCalls (calls ++ [OptCall.setEmail e])).params) = some e) ∧
    (∀ (o : OculusOptions) (calls : List OptCall) (x : Nat),
      lookupParam "date_expires"
        ((o.applyCalls (calls ++ [OptCall.setExpiredAt x])).params) =
          some (Nat.repr x)) := by
  refine ⟨?_, ?_, ?_, ?_, ?_, ?_, ?_, ?_, ?_, ?_, ?_, ?_, ?_, ?_, ?_, ?_⟩
  · intro t calls
    refine sorted_keys_nodup ?_
    rw [galaxy_applyCalls_params]
    exact applyCallsP_sorted calls (galaxy_new_sorted t)
  · intro t calls
    refine sorted_keys_nodup ?_
    rw [itchio_applyCalls_params]
    exact applyCallsP_sorted calls (itchio_new_sorted t)
  · intro n uid tok calls
    refine sorted_keys_nodup ?_
    rw [oculus_applyCalls_params]
    exact applyCallsP_sorted calls (oculus_new_sorted n uid tok)
  · intro t calls
    refine sorted_keys_nodup ?_
    rw [steam_applyCalls_params]
    exact applyCallsP_sorted calls (steam_new_sorted t)
  · exact fun o a b => congrArg GalaxyOptions.mk (insertParam_overwrite o.params)
  · exact fun o a b => congrArg GalaxyOptions.mk (insertParam_overwrite o.params)
  · exact fun o a b => congrArg ItchioOptions.mk (insertParam_overwrite o.params)
  · exact fun o a b => congrArg ItchioOptions.mk (insertParam_overwrite o.params)
  · exact fun o a b => congrArg OculusOptions.mk (insertParam_overwrite o.params)
  · exact fun o a b => congrArg OculusOptions.mk (insertParam_overwrite o.params)
  · exact fun o a b => congrArg SteamOptions.mk (insertParam_overwrite o.params)
  · exact fun o a b => congrArg SteamOptions.mk (insertParam_overwrite o.params)
  · intro o calls e
    rw [galaxy_applyCalls_params, applyCallsP_append]
    exact lookupParam_insert_self "email" e _
  · intro o calls x
    rw [galaxy_applyCalls_params, applyCallsP_append]
    exact lookupParam_insert_self "date_expires" (Nat.repr x) _
  · intro o calls e
    rw [oculus_applyCalls_params, applyCallsP_append]
    exact lookupParam_insert_self "email" e _
  · intro o calls x
    rw [oculus_applyCalls_params, applyCallsP_append]
    exact lookupParam_insert_self "date_expires" (Nat.repr x) _

/-- C5: `LinkOptions` encodes exactly `email`, `service` and `service_id`,
with `service` equal to `steam`, `gog` or `itch` by variant and
`service_id` the decimal string of the id; concretely
`LinkOptions::steam("a@b.com", 42)` encodes to
`email=a%40b.com&service=steam&service_id=42`. -/
theorem C5_link_options_encoding (em : String) (id : Nat) :
    (LinkOptions.steam em id).to_query_string =
      "email=" ++ encodeStr em ++ "&service=steam&service_id=" ++ Nat.repr id ∧
    (LinkOptions.gog em id).to_query_string =
      "email=" ++ encodeStr em ++ "&service=gog&service_id=" ++ Nat.repr id ∧
    (LinkOptions.itchio em id).to_query_string =
      "email=" ++ encodeStr em ++ "&service=itch&service_id=" ++ Nat.repr id ∧
    queryKeys (LinkOptions.steam em id).queryPairs =
      ["email", "service", "service_id"] ∧
    (LinkOptions.steam "a@b.com" 42).to_query_string =
      "email=a%40b.com&service=steam&service_id=42" := by
  refine ⟨?_, ?_, ?_, rfl, rfl⟩
  · apply string_eq_of_data
    show (encodePair "email" em ++ "&" ++
      (encodePair "service" "steam" ++ "&" ++
        encodePair "service_id" (Nat.repr id))).data = _
    rw [encodePair, encodePair, encodePair, encodeStr_repr]
    simp only [string_data_append, List.append_assoc]
    rfl
  · apply string_eq_of_data
    show (encodePair "email" em ++ "&" ++
      (encodePair "service" "gog" ++ "&" ++
        encodePair "service_id" (Nat.repr id))).data = _
    rw [encodePair, encodePair, encodePair, encodeStr_repr]
    simp only [string_data_append, List.append_assoc]
    rfl
  · apply string_eq_of_data
    show (encodePair "email" em ++ "&" ++
      (encodePair "service" "itch" ++ "&" ++
        encodePair "service_id" (Nat.repr id))).data = _
    rw [encodePair, encodePair, encodePair, encodeStr_repr]
    simp only [string_data_append, List.append_assoc]
    rfl

/-- C4: on a successful `security_code` or `external` exchange, the
returned `Credentials` carries the pre-exchange `api_key` unchanged and a
present token built from the response (`value = access_token`,
`expired_at = date_expires`). -/
theorem C4_exchange_preserves_api_key {ε : Type} (m : Modio) (code : String)
    (opts : AuthOptions) (send₁ send₂ : Route → String → Except ε AccessToken)
    (t₁ t₂ : AccessToken) :
    (send₁ Route.AuthEmailExchange (encodePairs [("security_code", code)]) =
        Except.ok t₁ →
      Auth.security_code m code send₁ =
        Except.ok
          { api_key := m.credentials.api_key
            token := some { value := t₁.value, expired_at := t₁.expired_at } }) ∧
    (send₂ (externalDispatch opts).1 (externalDispatch opts).2 =
        Except.ok t₂ →
      Auth.external m opts send₂ =
        Except.ok
          { api_key := m.credentials.api_key
            token := some { value := t₂.value, expired_at := t₂.expired_at } }) := by
  constructor
  · intro h
    simp [Auth.security_code, h]
  · intro h
    simp [Auth.external, h]

/-- Witness for C4 at concrete inputs. -/
theorem C4_exchange_preserves_api_key_witness :
    Auth.security_code (ε := Unit) ⟨Credentials.new "k"⟩ "c"
        (fun _ _ => Except.ok ⟨"tok", some 5⟩) =
      Except.ok ⟨"k", some ⟨"tok", some 5⟩⟩ :=
  (C4_exchange_preserves_api_key ⟨Credentials.new "k"⟩ "c"
    (AuthOptions.Steam (SteamOptions.new "x"))
    (fun _ _ => Except.ok ⟨"tok", some 5⟩)
    (fun _ _ => Except.ok ⟨"tok", some 5⟩)
    ⟨"tok", some 5⟩ ⟨"tok", some 5⟩).1 rfl

/-- C8: when the transport collaborator fails, each of the four operations
returns that error (so no new `Credentials` is produced; being pure values,
the caller's pre-call credentials are untouched). -/
theorem C8_error_propagation {ε : Type} (m : Modio) (email code : String)
    (opts : AuthOptions) (lopts : LinkOptions)
    (sendM : Route → String → Except ε ModioMessage)
    (sendT : Route → String → Except ε AccessToken) (e : ε) :
    (sendM Route.AuthEmailRequest (encodePairs [("email", email)]) =
        Except.error e →
      Auth.request_code m email sendM = Except.error e) ∧
    (sendT Route.AuthEmailExchange (encodePairs [("security_code", code)]) =
        Except.error e →
      Auth.security_code m code sendT = Except.error e) ∧
    (sendT (externalDispatch opts).1 (externalDispatch opts).2 =
        Except.error e →
      Auth.external m opts sendT = Except.error e) ∧
    (sendM Route.LinkAccount lopts.to_query_string = Except.error e →
      Auth.link m lopts sendM = Except.error e) := by
  refine ⟨?_, ?_, ?_, ?_⟩ <;> intro h
  · simp [Auth.request_code, h]
  · simp [Auth.security_code, h]
  · simp [Auth.external, h]
  · simp [Auth.link, h]

/-- Witness for C8 at concrete inputs. -/
theorem C8_error_propagation_witness :
    Auth.request_code (ε := Unit) ⟨Credentials.new "k"⟩ "a@b.com"
        (fun _ _ => Except.error ()) =
      Except.error () :=
  (C8_error_propagation ⟨Credentials.new "k"⟩ "a@b.com" "c"
    (AuthOptions.Gog (GalaxyOptions.new "t")) (LinkOptions.steam "a@b.com" 1)
    (fun _ _ => Except.error ()) (fun _ _ => Except.error ()) ()).1 rfl

/-- C6 counterexample: the Debug rendering of `Credentials::new("apikey")`
does contain its api-key string (`"apikey"` is a substring of the fixed
literal `"Credentials(apikey)"`), so "the rendering never contains the
api_key string" is false as universally stated. -/
theorem C6_counterexample :
    (Credentials.new "apikey").api_key = "apikey" ∧
    strContains (Credentials.new "apikey").debugFmt "apikey" = true :=
  ⟨rfl, by decide⟩

/-- C6 (amended): the Debug rendering of `Credentials` is one of two fixed
literals chosen only by token presence, so any two credentials agreeing on
token presence render identically, and no field value influences the
output. -/
theorem C6_debug_presence_only (c c₁ c₂ : Credentials) :
    (c.debugFmt = "Credentials(apikey+token)" ∨
      c.debugFmt = "Credentials(apikey)") ∧
    (c.debugFmt = "Credentials(apikey+token)" ↔ c.token.isSome = true) ∧
    (c₁.token.isSome = c₂.token.isSome → c₁.debugFmt = c₂.debugFmt) := by
  refine ⟨?_, ?_, ?_⟩
  · rcases c with ⟨k, tok⟩
    cases tok <;> simp [Credentials.debugFmt]
  · rcases c with ⟨k, tok⟩
    cases tok <;> simp [Credentials.debugFmt]
  · intro h
    rcases c₁ with ⟨k₁, tok₁⟩
    rcases c₂ with ⟨k₂, tok₂⟩
    simp only [Credentials.debugFmt]
    rw [show tok₁.isSome = tok₂.isSome from h]

/-- Witness for the amended C6 at concrete inputs. -/
theorem C6_debug_presence_only_witness :
    (Credentials.new "k").debugFmt = (Credentials.new "j").debugFmt :=
  (C6_debug_presence_only (Credentials.new "k") (Credentials.new "k")
    (Credentials.new "j")).2.2 rfl

end ModioAuth
